import Mathlib

/-!
Shallow embedding of the serverless LIFO queue demonstration
(`app/process_tasks.js`, `app/create_tasks.js`, `app/task_runner.js`).

The DynamoDB queue table is modelled as a list of task records keyed by
`taskId`.  The DynamoDB operations the code issues are modelled with their
standard semantics:
* `UpdateItemCommand` with a `ConditionExpression` on `taskStatus`
  (`transitionTask`): the conditional check and the write are one atomic
  step; a failed condition raises `ConditionalCheckFailedException`,
  which the code turns into a `false` return value;
* `PutItemCommand` without any condition (`createTask`): an upsert that
  replaces an existing item with the same key;
* `QueryCommand` on the `(taskStatus, taskCreated)` secondary index with
  `ScanIndexForward: false` and `Limit` (`getPendingTaskBatch`): the
  records of the requested status, ordered by `taskCreated` descending,
  truncated to the page limit.

Store I/O failures and the throwing of the external task runner are
modelled with explicit boolean / `Except` oracles, since the JavaScript
catches every such exception and converts it to a value.
-/

namespace LifoQueue

/-- The four task states used by the application. -/
inductive TaskStatus
  | PENDING
  | TAKEN
  | SUCCESS
  | FAILURE
deriving DecidableEq, Repr

/-- One item of the queue table: key `taskId`, the mutable `taskStatus` and
`taskUpdated` attributes, the immutable `taskCreated` and `ttl` attributes
written by `createTask`, and opaque payload attributes not interpreted by
the engine. -/
structure TaskRecord where
  taskId : String
  taskStatus : TaskStatus
  taskCreated : Nat
  taskUpdated : Nat
  ttl : Nat
  payload : List (String × String)
deriving DecidableEq, Repr

/-- The queue table. -/
abbrev Store := List TaskRecord

/-! ### `transitionTask` (app/process_tasks.js lines 26-56) -/

/-- Result of one `transitionTask` call: the table afterwards, the boolean
the function returns, and whether `console.error` was invoked
(`TRANSITION_TASK_ERROR`, emitted only when the caught error is not a
`ConditionalCheckFailedException`). -/
structure TransitionResult where
  store : Store
  returned : Bool
  loggedError : Bool
deriving Repr

/-- The `ConditionExpression "taskStatus = :fromTaskStatus"` evaluated on
the item with key `taskId`: it holds when that item exists and its
`taskStatus` equals `fromStatus`. -/
def conditionHolds (store : Store) (taskId : String) (fromStatus : TaskStatus) : Bool :=
  store.any fun r => decide (r.taskId = taskId ∧ r.taskStatus = fromStatus)

/-- The `UpdateExpression "set taskStatus = :toTaskStatus, taskUpdated =
:taskUpdated"` applied to the item with key `taskId`. -/
def applyTransition (store : Store) (taskId : String) (toStatus : TaskStatus) (now : Nat) :
    Store :=
  store.map fun r =>
    if r.taskId = taskId then { r with taskStatus := toStatus, taskUpdated := now } else r

/-- `transitionTask(task, fromTaskStatus, toTaskStatus)`.  `ioError` models
the `UpdateItemCommand` failing for an infrastructure reason; in that case
the update did not apply, `console.error` fires, and `false` is returned.
Otherwise the conditional update applies atomically: on success `true` is
returned; on a failed condition check the `ConditionalCheckFailedException`
is caught and `false` is returned, but `console.error` fires here too: the
catch guard compares `err.code`, and AWS SDK v3 exceptions carry the
exception class name in `err.name` while `err.code` is undefined, so
`err.code !== 'ConditionalCheckFailedException'` is always true and
`TRANSITION_TASK_ERROR` is logged on every caught error, contention
included.  The function never throws. -/
def transitionTask (store : Store) (taskId : String) (fromStatus toStatus : TaskStatus)
    (now : Nat) (ioError : Bool) : TransitionResult :=
  if ioError then
    { store := store, returned := false, loggedError := true }
  else if conditionHolds store taskId fromStatus then
    { store := applyTransition store taskId toStatus now, returned := true, loggedError := false }
  else
    { store := store, returned := false, loggedError := true }

/-! ### `createTask` (app/create_tasks.js lines 25-56) -/

/-- `ttlAmount: 1, ttlUnit: 'hour'` — `now.plus({hour: 1}).toMillis()` is
`now + 3600000` milliseconds. -/
def ttlHorizonMillis : Nat := 3600000

/-- DynamoDB `PutItemCommand` semantics: without a condition expression the
put replaces an existing item with the same key, and appends a fresh item
otherwise. -/
def putItem (store : Store) (item : TaskRecord) : Store :=
  if store.any fun r => decide (r.taskId = item.taskId) then
    store.map fun r => if r.taskId = item.taskId then item else r
  else
    store ++ [item]

/-- The item `createTask` writes: status `PENDING`, `taskCreated` =
`taskUpdated` = now, `ttl` = now plus the one-hour horizon, no payload. -/
def newTaskItem (taskId : String) (now : Nat) : TaskRecord :=
  { taskId := taskId, taskStatus := .PENDING, taskCreated := now, taskUpdated := now,
    ttl := now + ttlHorizonMillis, payload := [] }

/-- `createTask(taskId)`: issues an unconditional `PutItemCommand` for
`newTaskItem` and returns `true`; on an I/O error it logs and returns
`false` with the table unchanged. -/
def createTask (store : Store) (taskId : String) (now : Nat) (ioError : Bool) :
    Store × Bool :=
  if ioError then (store, false) else (putItem store (newTaskItem taskId now), true)

/-! ### `getPendingTaskBatch` (app/process_tasks.js lines 60-85) -/

/-- `Limit: CONFIG.pageLimit` with `pageLimit: 10`. -/
def pageLimit : Nat := 10

/-- The index order read with `ScanIndexForward: false`: `taskCreated`
descending. -/
def createdDesc (a b : TaskRecord) : Prop := b.taskCreated ≤ a.taskCreated

instance : DecidableRel createdDesc := fun _ _ => Nat.decLe _ _

instance : IsTotal TaskRecord createdDesc :=
  ⟨fun a b => Nat.le_total b.taskCreated a.taskCreated⟩

instance : IsTrans TaskRecord createdDesc :=
  ⟨fun _ _ _ h1 h2 => Nat.le_trans h2 h1⟩

/-- Strictly descending creation order, used to state the LIFO property. -/
def createdStrictDesc (a b : TaskRecord) : Prop := b.taskCreated < a.taskCreated

instance : IsAntisymm TaskRecord createdStrictDesc :=
  ⟨fun _ _ h1 h2 => absurd h1 (Nat.lt_asymm h2)⟩

instance : IsTrans TaskRecord createdStrictDesc :=
  ⟨fun _ _ _ h1 h2 => Nat.lt_trans h2 h1⟩

/-- The query on the `task-status-created-index`:
`KeyConditionExpression 'taskStatus = :taskStatus'` with `:taskStatus =
PENDING`, results ordered by the `taskCreated` range key descending
(`ScanIndexForward: false`), truncated at `Limit: pageLimit`. -/
def getPendingTaskBatch (store : Store) : List TaskRecord :=
  (List.insertionSort createdDesc
      (store.filter fun r => decide (r.taskStatus = .PENDING))).take pageLimit

/-! ### `processTask` / `processTaskBatch` (app/process_tasks.js lines 88-115) -/

/-- Per-task oracle: the outcome of the `taskRunner(task)` call for this
task (`.ok s` = the runner returned status `s`, `.error e` = the runner
threw), the I/O-failure flags of the two `transitionTask` calls, and the
clock values at those calls. -/
structure TaskEnv where
  runnerResult : Except String TaskStatus
  leaseIoError : Bool
  concludeIoError : Bool
  leaseNow : Nat
  concludeNow : Nat

/-- Result of `processTask` for one task: the table afterwards, whether
`taskRunner` was invoked, the `(from, to)` pair of the concluding
`transitionTask` call when one was made, and whether the `catch` branch
logged `PROCESS_TASK_ERROR`. -/
structure ProcessTaskResult where
  store : Store
  runnerInvoked : Bool
  concludingTransition : Option (TaskStatus × TaskStatus)
  loggedProcessError : Bool

/-- `processTask(task)`: attempt the lease `transitionTask(task, 'PENDING',
'TAKEN')`; if it returns `false` the task is skipped.  Otherwise invoke
the runner; a thrown runner error is caught, logged, and turns the outcome
into `PENDING`; the `finally` block issues `transitionTask(task, 'TAKEN',
toState)`. -/
def processTask (store : Store) (task : TaskRecord) (env : TaskEnv) : ProcessTaskResult :=
  let lease := transitionTask store task.taskId .PENDING .TAKEN env.leaseNow env.leaseIoError
  if lease.returned then
    let toState := match env.runnerResult with
      | .ok s => s
      | .error _ => TaskStatus.PENDING
    let fin := transitionTask lease.store task.taskId .TAKEN toState env.concludeNow
      env.concludeIoError
    { store := fin.store, runnerInvoked := true,
      concludingTransition := some (.TAKEN, toState),
      loggedProcessError := match env.runnerResult with
        | .ok _ => false
        | .error _ => true }
  else
    { store := lease.store, runnerInvoked := false, concludingTransition := none,
      loggedProcessError := false }

/-- `processTaskBatch(tasks)` followed by `Promise.allSettled`: every task
of the batch is processed (staggered by `delayBetweenTask`, hence in list
order on the shared table) and one settled result per task is collected;
no task's failure short-circuits the rest. -/
def processTaskBatch : Store → List (TaskRecord × TaskEnv) → Store × List ProcessTaskResult
  | store, [] => (store, [])
  | store, x :: rest =>
    let r := processTask store x.1 x.2
    let tail := processTaskBatch r.store rest
    (tail.1, r :: tail.2)

/-! ### `processTasks` (app/process_tasks.js lines 118-145) -/

/-- `maxActiveTime: 59 * 1000`. -/
def maxActiveTime : Nat := 59 * 1000

/-- Environment of one loop iteration: the elapsed active time measured at
entry (`Math.abs(start.diffNow().toMillis())`) and the per-task oracles
for the batch fetched in this iteration (indexed by position in the
batch). -/
structure IterEnv where
  activeTime : Nat
  taskEnv : Nat → TaskEnv

/-- Result of a finished activation: the final table, how many times the
hand-off `callFunction({topicArn: TRIGGER_TOPIC_ARN})` was invoked during
the whole activation, and whether the final iteration saw a non-empty
batch and had exceeded the time budget. -/
structure LoopResult where
  store : Store
  handoffs : Nat
  finalHasTasks : Bool
  finalReachedLimit : Bool
deriving Repr

/-- The recursive `processTasks(start)` loop.  Each iteration computes
`reachedTimeLimit`, fetches a batch, and either processes the whole batch
and recurses (after `delayBetweenBatch`), or stops: on stopping it calls
the hand-off trigger exactly when the batch was non-empty, and resolves.
`none` means the supplied iteration environments ran out before the loop
stopped. -/
def processTasksLoop : Store → List IterEnv → Option LoopResult
  | _, [] => none
  | store, e :: rest =>
    let batch := getPendingTaskBatch store
    let hasTasks : Bool := decide (0 < batch.length)
    let reached : Bool := decide (maxActiveTime ≤ e.activeTime)
    if hasTasks && !reached then
      processTasksLoop
        (processTaskBatch store (batch.enum.map fun p => (p.2, e.taskEnv p.1))).1 rest
    else
      some { store := store, handoffs := if hasTasks then 1 else 0,
             finalHasTasks := hasTasks, finalReachedLimit := reached }

/-! ### `fakeTaskRunner` (app/task_runner.js) -/

/-- `fakeMaxActiveTasks: 3`. -/
def fakeMaxActiveTasks : Nat := 3

/-- The two moments at which `fakeTaskRunner` touches the shared
`activeTaskCount`: synchronous entry, and the timed completion callback. -/
inductive RunnerEvent
  | enter
  | complete
deriving DecidableEq, Repr

/-- Effect of one event on `activeTaskCount`: entry increments only when
the count is below `fakeMaxActiveTasks` (otherwise the task is rejected
without touching the count); a completion decrements. -/
def fakeTaskRunnerStep (activeTaskCount : Nat) : RunnerEvent → Nat
  | .enter =>
      if fakeMaxActiveTasks ≤ activeTaskCount then activeTaskCount else activeTaskCount + 1
  | .complete => activeTaskCount - 1

/-- The status `fakeTaskRunner` resolves with, as a function of the
`activeTaskCount` read at entry: `'PENDING'` when the limit is reached
(`TASK_RUN_SKIP`), otherwise `'SUCCESS'` after `fakeTaskDuration`. -/
def fakeTaskRunnerResult (activeTaskCount : Nat) : TaskStatus :=
  if fakeMaxActiveTasks ≤ activeTaskCount then .PENDING else .SUCCESS

/-! ## Helper lemmas -/

theorem conditionHolds_iff (store : Store) (taskId : String) (fromStatus : TaskStatus) :
    conditionHolds store taskId fromStatus = true ↔
      ∃ r ∈ store, r.taskId = taskId ∧ r.taskStatus = fromStatus := by
  simp [conditionHolds, List.any_eq_true]

theorem transitionTask_not_returned_store (store : Store) (taskId : String)
    (fromStatus toStatus : TaskStatus) (now : Nat) (ioError : Bool)
    (h : (transitionTask store taskId fromStatus toStatus now ioError).returned = false) :
    (transitionTask store taskId fromStatus toStatus now ioError).store = store := by
  unfold transitionTask at h ⊢
  cases ioError
  · by_cases hc : conditionHolds store taskId fromStatus = true <;> simp [hc] at h ⊢
  · simp

theorem transitionTask_store_cases (store : Store) (taskId : String)
    (fromStatus toStatus : TaskStatus) (now : Nat) (ioError : Bool) :
    (transitionTask store taskId fromStatus toStatus now ioError).store = store ∨
      (transitionTask store taskId fromStatus toStatus now ioError).store =
        applyTransition store taskId toStatus now := by
  unfold transitionTask
  cases ioError
  · by_cases hc : conditionHolds store taskId fromStatus = true <;> simp [hc]
  · simp

theorem getPendingTaskBatch_sorted (store : Store) :
    (getPendingTaskBatch store).Pairwise createdDesc :=
  (List.sorted_insertionSort createdDesc _).sublist (List.take_sublist _ _)

theorem getPendingTaskBatch_rank (store : Store) (j k : Nat)
    (hj : j < (getPendingTaskBatch store).length)
    (hk : k < (getPendingTaskBatch store).length)
    (hlt : ((getPendingTaskBatch store).get ⟨j, hj⟩).taskCreated <
      ((getPendingTaskBatch store).get ⟨k, hk⟩).taskCreated) : k < j := by
  have hp := List.pairwise_iff_get.mp (getPendingTaskBatch_sorted store)
  rcases Nat.lt_trichotomy k j with h | h | h
  · exact h
  · subst h
    exact absurd hlt (Nat.lt_irrefl _)
  · exact absurd hlt (Nat.not_lt.mpr (hp ⟨j, hj⟩ ⟨k, hk⟩ h))

/-! ## Claims -/

/-- C1: `transitionTask` atomically sets the task's status to `toStatus`
and its `taskUpdated` to the current time iff the task's current persisted
status equals `fromStatus`; on a failed condition the table is unchanged;
in particular a task whose status is `SUCCESS` or `FAILURE` is untouched by
any transition attempt with origin `PENDING` or `TAKEN`. -/
theorem transitionTask_conditional_spec (store : Store) (taskId : String)
    (fromStatus toStatus : TaskStatus) (now : Nat) :
    ((transitionTask store taskId fromStatus toStatus now false).returned = true ↔
        ∃ r ∈ store, r.taskId = taskId ∧ r.taskStatus = fromStatus)
    ∧ ((transitionTask store taskId fromStatus toStatus now false).returned = true →
        (transitionTask store taskId fromStatus toStatus now false).store =
          applyTransition store taskId toStatus now)
    ∧ ((transitionTask store taskId fromStatus toStatus now false).returned = false →
        (transitionTask store taskId fromStatus toStatus now false).store = store)
    ∧ (∀ i (h1 : i < store.length)
          (h2 : i < (applyTransition store taskId toStatus now).length),
        (applyTransition store taskId toStatus now).get ⟨i, h2⟩ =
          if (store.get ⟨i, h1⟩).taskId = taskId
          then { store.get ⟨i, h1⟩ with taskStatus := toStatus, taskUpdated := now }
          else store.get ⟨i, h1⟩)
    ∧ ((∀ r ∈ store, r.taskId = taskId →
          r.taskStatus = .SUCCESS ∨ r.taskStatus = .FAILURE) →
        (fromStatus = .PENDING ∨ fromStatus = .TAKEN) →
        (transitionTask store taskId fromStatus toStatus now false).returned = false ∧
          (transitionTask store taskId fromStatus toStatus now false).store = store) := by
  refine ⟨?_, ?_, ?_, ?_, ?_⟩
  · rw [← conditionHolds_iff]
    by_cases hc : conditionHolds store taskId fromStatus = true <;> simp [transitionTask, hc]
  · intro h
    by_cases hc : conditionHolds store taskId fromStatus = true
    · simp [transitionTask, hc]
    · simp [transitionTask, hc] at h
  · exact transitionTask_not_returned_store store taskId fromStatus toStatus now false
  · intro i h1 h2
    simp [applyTransition, List.get_eq_getElem, List.getElem_map]
  · intro hterm hfrom
    have hcf : conditionHolds store taskId fromStatus = false := by
      cases hc : conditionHolds store taskId fromStatus
      · rfl
      · exfalso
        obtain ⟨r, hr, hid, hst⟩ := (conditionHolds_iff store taskId fromStatus).mp hc
        rcases hterm r hr hid with h' | h' <;> rcases hfrom with hf | hf <;>
          rw [h', hf] at hst <;> exact TaskStatus.noConfusion hst
    simp [transitionTask, hcf]

/-- C1 witness: on a one-record table holding a `PENDING` task with id
`"a"`, the `PENDING → TAKEN` transition succeeds. -/
theorem transitionTask_conditional_spec_witness :
    (transitionTask
      [{ taskId := "a", taskStatus := .PENDING, taskCreated := 1, taskUpdated := 1,
         ttl := 10, payload := [] }] "a" .PENDING .TAKEN 5 false).returned = true :=
  (transitionTask_conditional_spec
    [{ taskId := "a", taskStatus := .PENDING, taskCreated := 1, taskUpdated := 1,
       ttl := 10, payload := [] }] "a" .PENDING .TAKEN 5).1.mpr (by decide)

/-- C2 counterexample: `createTask` issues an unconditional `PutItem`, so
inserting with an already-existing `taskId` reports success and replaces
the existing record (here a `SUCCESS` record becomes a fresh `PENDING`
one), contradicting "the insert fails or is a no-op: it never overwrites
or replaces the existing record". -/
theorem createTask_overwrites_counterexample :
    (createTask
      [{ taskId := "t1", taskStatus := .SUCCESS, taskCreated := 5, taskUpdated := 9,
         ttl := 100, payload := [] }] "t1" 50 false).2 = true
    ∧ (createTask
        [{ taskId := "t1", taskStatus := .SUCCESS, taskCreated := 5, taskUpdated := 9,
           ttl := 100, payload := [] }] "t1" 50 false).1 ≠
        [{ taskId := "t1", taskStatus := .SUCCESS, taskCreated := 5, taskUpdated := 9,
           ttl := 100, payload := [] }]
    ∧ (createTask
        [{ taskId := "t1", taskStatus := .SUCCESS, taskCreated := 5, taskUpdated := 9,
           ttl := 100, payload := [] }] "t1" 50 false).1 = [newTaskItem "t1" 50] := by
  refine ⟨rfl, ?_, rfl⟩
  decide

/-- C2 amended: `createTask` reports success and writes `newTaskItem`
unconditionally — for a fresh `taskId` it creates the record with status
`PENDING`, `taskCreated = taskUpdated = now` and `ttl = now` plus the
one-hour horizon; for an existing `taskId` it overwrites the existing
record with that fresh item. -/
theorem createTask_amended_spec (store : Store) (taskId : String) (now : Nat) :
    (createTask store taskId now false).2 = true
    ∧ ((∀ r ∈ store, r.taskId ≠ taskId) →
        (createTask store taskId now false).1 = store ++ [newTaskItem taskId now])
    ∧ ((∃ r ∈ store, r.taskId = taskId) →
        (createTask store taskId now false).1 =
          store.map fun r => if r.taskId = taskId then newTaskItem taskId now else r)
    ∧ (newTaskItem taskId now).taskStatus = .PENDING
    ∧ (newTaskItem taskId now).taskCreated = now
    ∧ (newTaskItem taskId now).taskUpdated = now
    ∧ (newTaskItem taskId now).ttl = now + ttlHorizonMillis := by
  refine ⟨rfl, ?_, ?_, rfl, rfl, rfl, rfl⟩
  · intro hfresh
    have hany : (store.any fun r => decide (r.taskId = taskId)) = false := by
      simp only [List.any_eq_false, decide_eq_true_eq]
      intro r hr
      exact hfresh r hr
    simp [createTask, putItem, newTaskItem, hany]
  · intro ⟨r, hr, hid⟩
    have hany : (store.any fun r => decide (r.taskId = taskId)) = true := by
      simp only [List.any_eq_true, decide_eq_true_eq]
      exact ⟨r, hr, hid⟩
    simp [createTask, putItem, newTaskItem, hany]

/-- C2 amended witness: inserting id `"a"` into the empty table appends
the fresh `PENDING` item. -/
theorem createTask_amended_spec_witness :
    (createTask [] "a" 7 false).1 = [] ++ [newTaskItem "a" 7] :=
  (createTask_amended_spec [] "a" 7).2.1 (by simp)

/-- C5: a transition mutates only `taskStatus` and `taskUpdated`: the
table keeps its length and every record keeps its `taskId`,
`taskCreated`, `ttl` and payload; consequently, after a
`TAKEN → PENDING` requeue, a batch query of the resulting table ranks a
record strictly below (later than) every record with a larger
`taskCreated`. -/
theorem transitionTask_frame_spec (store : Store) (taskId : String)
    (fromStatus toStatus : TaskStatus) (now : Nat) (ioError : Bool) :
    (transitionTask store taskId fromStatus toStatus now ioError).store.length = store.length
    ∧ (∀ i (h1 : i < store.length)
          (h2 : i < (transitionTask store taskId fromStatus toStatus now ioError).store.length),
        ((transitionTask store taskId fromStatus toStatus now ioError).store.get
            ⟨i, h2⟩).taskId = (store.get ⟨i, h1⟩).taskId
        ∧ ((transitionTask store taskId fromStatus toStatus now ioError).store.get
            ⟨i, h2⟩).taskCreated = (store.get ⟨i, h1⟩).taskCreated
        ∧ ((transitionTask store taskId fromStatus toStatus now ioError).store.get
            ⟨i, h2⟩).ttl = (store.get ⟨i, h1⟩).ttl
        ∧ ((transitionTask store taskId fromStatus toStatus now ioError).store.get
            ⟨i, h2⟩).payload = (store.get ⟨i, h1⟩).payload)
    ∧ (∀ (j k : Nat)
          (hj : j < (getPendingTaskBatch
            (transitionTask store taskId .TAKEN .PENDING now ioError).store).length)
          (hk : k < (getPendingTaskBatch
            (transitionTask store taskId .TAKEN .PENDING now ioError).store).length),
        ((getPendingTaskBatch
            (transitionTask store taskId .TAKEN .PENDING now ioError).store).get
              ⟨j, hj⟩).taskCreated <
          ((getPendingTaskBatch
              (transitionTask store taskId .TAKEN .PENDING now ioError).store).get
                ⟨k, hk⟩).taskCreated → k < j) := by
  rcases transitionTask_store_cases store taskId fromStatus toStatus now ioError with heq | heq
  all_goals refine ⟨?_, ?_, fun j k hj hk hlt => getPendingTaskBatch_rank _ j k hj hk hlt⟩
  · rw [heq]
  · intro i h1 h2
    revert h2
    rw [heq]
    intro h2
    exact ⟨rfl, rfl, rfl, rfl⟩
  · rw [heq, applyTransition, List.length_map]
  · intro i h1 h2
    revert h2
    rw [heq]
    intro h2
    simp only [applyTransition, List.get_eq_getElem, List.getElem_map]
    split <;> exact ⟨rfl, rfl, rfl, rfl⟩

/-- C5 witness: frame preservation at a concrete one-record table. -/
theorem transitionTask_frame_spec_witness :
    ((transitionTask
      [{ taskId := "a", taskStatus := .TAKEN, taskCreated := 1, taskUpdated := 2,
          ttl := 10, payload := [("k", "v")] }] "a" .TAKEN .PENDING 5 false).store.get
        ⟨0, by decide⟩).taskCreated =
      (([{ taskId := "a", taskStatus := .TAKEN, taskCreated := 1, taskUpdated := 2,
            ttl := 10, payload := [("k", "v")] }] : Store).get ⟨0, by decide⟩).taskCreated :=
  ((transitionTask_frame_spec
    [{ taskId := "a", taskStatus := .TAKEN, taskCreated := 1, taskUpdated := 2,
        ttl := 10, payload := [("k", "v")] }] "a" .TAKEN .PENDING 5 false).2.1 0
    (by decide) (by decide)).2.1

/-- C9 (code bug): on an expected conditional-check (contention) failure —
here a `PENDING → TAKEN` attempt against a record already in `SUCCESS` —
the call returns failure rather than raising and leaves the table
unchanged, as the claim demands; but `TRANSITION_TASK_ERROR` is logged via
`console.error` even though the failure is pure contention and not an I/O
error.  The guard at `process_tasks.js` line 50 compares `err.code`
against `'ConditionalCheckFailedException'`, and AWS SDK v3 exceptions do
not set `err.code` (the exception class name is in `err.name`), so the
guard is always true and the error log fires on every caught error,
defeating its own evident purpose of suppressing the log for expected
contention. -/
theorem transitionTask_contention_logs_error :
    (transitionTask
      [{ taskId := "a", taskStatus := .SUCCESS, taskCreated := 1, taskUpdated := 2,
         ttl := 10, payload := [] }] "a" .PENDING .TAKEN 5 false).returned = false
    ∧ (transitionTask
        [{ taskId := "a", taskStatus := .SUCCESS, taskCreated := 1, taskUpdated := 2,
           ttl := 10, payload := [] }] "a" .PENDING .TAKEN 5 false).store =
        [{ taskId := "a", taskStatus := .SUCCESS, taskCreated := 1, taskUpdated := 2,
           ttl := 10, payload := [] }]
    ∧ (transitionTask
        [{ taskId := "a", taskStatus := .SUCCESS, taskCreated := 1, taskUpdated := 2,
           ttl := 10, payload := [] }] "a" .PENDING .TAKEN 5 false).loggedError = true :=
  ⟨rfl, rfl, rfl⟩

/-- C4: when the `PENDING` records have pairwise distinct `taskCreated`
timestamps, `getPendingTaskBatch` returns at most `pageLimit` tasks, all
with status `PENDING`, ordered by `taskCreated` strictly descending; and
when the `PENDING` records appear in the table in strictly increasing
creation order, the batch is exactly their reverse truncated at the page
limit. -/
theorem getPendingTaskBatch_lifo_spec (store : Store)
    (hdist : (store.filter fun r => decide (r.taskStatus = .PENDING)).Pairwise
      fun a b => a.taskCreated ≠ b.taskCreated) :
    (getPendingTaskBatch store).length ≤ pageLimit
    ∧ (∀ r ∈ getPendingTaskBatch store, r.taskStatus = .PENDING)
    ∧ (getPendingTaskBatch store).Pairwise createdStrictDesc
    ∧ ((store.filter fun r => decide (r.taskStatus = .PENDING)).Pairwise
          (fun a b => a.taskCreated < b.taskCreated) →
        getPendingTaskBatch store =
          ((store.filter fun r => decide (r.taskStatus = .PENDING)).reverse).take
            pageLimit) := by
  have hsor := List.sorted_insertionSort createdDesc
    (store.filter fun r => decide (r.taskStatus = .PENDING))
  have hne : (List.insertionSort createdDesc
      (store.filter fun r => decide (r.taskStatus = .PENDING))).Pairwise
        (fun a b => a.taskCreated ≠ b.taskCreated) :=
    ((List.perm_insertionSort createdDesc _).pairwise_iff
      (fun hxy => Ne.symm hxy)).mpr hdist
  have hstrict : (List.insertionSort createdDesc
      (store.filter fun r => decide (r.taskStatus = .PENDING))).Pairwise
        createdStrictDesc :=
    (hsor.and hne).imp fun h => lt_of_le_of_ne h.1 (Ne.symm h.2)
  refine ⟨List.length_take_le _ _, ?_, hstrict.sublist (List.take_sublist _ _), ?_⟩
  · intro r hr
    have h1 : r ∈ List.insertionSort createdDesc
        (store.filter fun r => decide (r.taskStatus = .PENDING)) :=
      (List.take_sublist _ _).subset hr
    rw [List.mem_insertionSort] at h1
    exact of_decide_eq_true (List.mem_filter.mp h1).2
  · intro hasc
    have hrev : ((store.filter fun r => decide (r.taskStatus = .PENDING)).reverse).Pairwise
        createdStrictDesc :=
      List.pairwise_reverse.mpr (hasc.imp fun h => h)
    have heq : List.insertionSort createdDesc
        (store.filter fun r => decide (r.taskStatus = .PENDING)) =
          (store.filter fun r => decide (r.taskStatus = .PENDING)).reverse :=
      List.eq_of_perm_of_sorted
        ((List.perm_insertionSort createdDesc _).trans (List.reverse_perm _).symm)
        hstrict hrev
    rw [getPendingTaskBatch, heq]

/-- C4 witness: three tasks, two of them `PENDING` with increasing
creation times, come back newest first. -/
theorem getPendingTaskBatch_lifo_spec_witness :
    getPendingTaskBatch
      [{ taskId := "a", taskStatus := .PENDING, taskCreated := 1, taskUpdated := 1,
          ttl := 10, payload := [] },
        { taskId := "b", taskStatus := .TAKEN, taskCreated := 2, taskUpdated := 2,
          ttl := 10, payload := [] },
        { taskId := "c", taskStatus := .PENDING, taskCreated := 3, taskUpdated := 3,
          ttl := 10, payload := [] }] =
      (([{ taskId := "a", taskStatus := .PENDING, taskCreated := 1, taskUpdated := 1,
            ttl := 10, payload := [] },
          { taskId := "b", taskStatus := .TAKEN, taskCreated := 2, taskUpdated := 2,
            ttl := 10, payload := [] },
          { taskId := "c", taskStatus := .PENDING, taskCreated := 3, taskUpdated := 3,
            ttl := 10, payload := [] }] : Store).filter
        fun r => decide (r.taskStatus = .PENDING)).reverse.take pageLimit :=
  (getPendingTaskBatch_lifo_spec
    [{ taskId := "a", taskStatus := .PENDING, taskCreated := 1, taskUpdated := 1,
        ttl := 10, payload := [] },
      { taskId := "b", taskStatus := .TAKEN, taskCreated := 2, taskUpdated := 2,
        ttl := 10, payload := [] },
      { taskId := "c", taskStatus := .PENDING, taskCreated := 3, taskUpdated := 3,
        ttl := 10, payload := [] }] (by decide)).2.2.2 (by decide)

/-- C3: the task runner is invoked for a task exactly when the
`PENDING → TAKEN` lease acquisition succeeded; on a failed lease the task
is skipped: no runner call, no concluding transition, table unchanged. -/
theorem processTask_lease_gates_runner (store : Store) (task : TaskRecord) (env : TaskEnv) :
    (processTask store task env).runnerInvoked =
      (transitionTask store task.taskId .PENDING .TAKEN env.leaseNow
        env.leaseIoError).returned
    ∧ ((processTask store task env).runnerInvoked = false →
        (processTask store task env).store = store ∧
        (processTask store task env).concludingTransition = none) := by
  cases hl : (transitionTask store task.taskId .PENDING .TAKEN env.leaseNow
      env.leaseIoError).returned
  · refine ⟨by simp [processTask, hl], fun _ => ⟨?_, by simp [processTask, hl]⟩⟩
    have hst := transitionTask_not_returned_store store task.taskId .PENDING .TAKEN
      env.leaseNow env.leaseIoError hl
    simp [processTask, hl, hst]
  · refine ⟨by simp [processTask, hl], fun h => ?_⟩
    simp [processTask, hl] at h

/-- C3 witness: on an empty table the lease fails and the task is skipped
without a runner call. -/
theorem processTask_lease_gates_runner_witness :
    (processTask []
      { taskId := "a", taskStatus := .PENDING, taskCreated := 1, taskUpdated := 1,
        ttl := 10, payload := [] }
      { runnerResult := Except.ok TaskStatus.SUCCESS, leaseIoError := false,
        concludeIoError := false, leaseNow := 2, concludeNow := 3 }).concludingTransition =
      none :=
  ((processTask_lease_gates_runner []
    { taskId := "a", taskStatus := .PENDING, taskCreated := 1, taskUpdated := 1,
      ttl := 10, payload := [] }
    { runnerResult := Except.ok TaskStatus.SUCCESS, leaseIoError := false,
      concludeIoError := false, leaseNow := 2, concludeNow := 3 }).2 rfl).2

/-- C7: when the runner for a leased task throws, the exception is caught
at the task level (`PROCESS_TASK_ERROR` is logged, nothing propagates) and
the concluding transition attempted is `TAKEN → PENDING`, not
`FAILURE`. -/
theorem processTask_runner_error_requeue (store : Store) (task : TaskRecord) (env : TaskEnv)
    (e : String)
    (hleased : (transitionTask store task.taskId .PENDING .TAKEN env.leaseNow
      env.leaseIoError).returned = true)
    (herr : env.runnerResult = Except.error e) :
    (processTask store task env).concludingTransition = some (.TAKEN, .PENDING)
    ∧ (processTask store task env).loggedProcessError = true
    ∧ (processTask store task env).store =
        (transitionTask
          (transitionTask store task.taskId .PENDING .TAKEN env.leaseNow
            env.leaseIoError).store
          task.taskId .TAKEN .PENDING env.concludeNow env.concludeIoError).store := by
  refine ⟨?_, ?_, ?_⟩ <;> simp [processTask, hleased, herr]

/-- C7 witness: a throwing runner on a leased task concludes with
`TAKEN → PENDING`. -/
theorem processTask_runner_error_requeue_witness :
    (processTask
      [{ taskId := "a", taskStatus := .PENDING, taskCreated := 1, taskUpdated := 1,
          ttl := 10, payload := [] }]
      { taskId := "a", taskStatus := .PENDING, taskCreated := 1, taskUpdated := 1,
        ttl := 10, payload := [] }
      { runnerResult := Except.error "boom", leaseIoError := false,
        concludeIoError := false, leaseNow := 2, concludeNow := 3 }).concludingTransition =
      some (.TAKEN, .PENDING) :=
  (processTask_runner_error_requeue
    [{ taskId := "a", taskStatus := .PENDING, taskCreated := 1, taskUpdated := 1,
        ttl := 10, payload := [] }]
    { taskId := "a", taskStatus := .PENDING, taskCreated := 1, taskUpdated := 1,
      ttl := 10, payload := [] }
    { runnerResult := Except.error "boom", leaseIoError := false,
      concludeIoError := false, leaseNow := 2, concludeNow := 3 } "boom"
    (by decide) rfl).1

theorem processTaskBatch_length (xs : List (TaskRecord × TaskEnv)) :
    ∀ store : Store, (processTaskBatch store xs).2.length = xs.length := by
  induction xs with
  | nil => intro _; rfl
  | cons x rest ih => intro store; simp [processTaskBatch, ih]

theorem processTaskBatch_get (xs : List (TaskRecord × TaskEnv)) :
    ∀ (store : Store) (i : Nat) (hi : i < xs.length)
      (hi2 : i < (processTaskBatch store xs).2.length),
      (processTaskBatch store xs).2.get ⟨i, hi2⟩ =
        processTask (processTaskBatch store (xs.take i)).1 (xs.get ⟨i, hi⟩).1
          (xs.get ⟨i, hi⟩).2 := by
  induction xs with
  | nil => intro _ i hi _; exact absurd hi (Nat.not_lt_zero i)
  | cons x rest ih =>
    intro store i hi hi2
    cases i with
    | zero => simp [processTaskBatch]
    | succ n =>
      have hn : n < rest.length := Nat.lt_of_succ_lt_succ hi
      have hn2 : n < (processTaskBatch (processTask store x.1 x.2).store rest).2.length := by
        rw [processTaskBatch_length]
        exact hn
      simp only [processTaskBatch, List.take_succ_cons, List.get_cons_succ]
      exact ih (processTask store x.1 x.2).store n hn hn2

/-- C8: `processTaskBatch` settles every task of the batch: it produces one
result per input task, and the result at index `i` is exactly
`processTask` run on task `i` against the table left by tasks `0..i-1` —
whatever errors those earlier tasks hit, task `i` is still attempted, and
nothing in the batch short-circuits before every task is settled. -/
theorem processTaskBatch_isolation_spec (store : Store)
    (xs : List (TaskRecord × TaskEnv)) :
    (processTaskBatch store xs).2.length = xs.length
    ∧ ∀ (i : Nat) (hi : i < xs.length) (hi2 : i < (processTaskBatch store xs).2.length),
        (processTaskBatch store xs).2.get ⟨i, hi2⟩ =
          processTask (processTaskBatch store (xs.take i)).1 (xs.get ⟨i, hi⟩).1
            (xs.get ⟨i, hi⟩).2 :=
  ⟨processTaskBatch_length xs store, fun i hi hi2 => processTaskBatch_get xs store i hi hi2⟩

/-- C8 witness: a two-task batch whose first task hits a lease I/O error
still attempts the second task. -/
theorem processTaskBatch_isolation_spec_witness :
    (processTaskBatch []
      [({ taskId := "a", taskStatus := .PENDING, taskCreated := 1, taskUpdated := 1,
           ttl := 10, payload := [] },
        { runnerResult := Except.ok TaskStatus.SUCCESS, leaseIoError := true,
          concludeIoError := false, leaseNow := 2, concludeNow := 3 }),
       ({ taskId := "b", taskStatus := .PENDING, taskCreated := 4, taskUpdated := 4,
           ttl := 10, payload := [] },
        { runnerResult := Except.ok TaskStatus.SUCCESS, leaseIoError := false,
          concludeIoError := false, leaseNow := 5, concludeNow := 6 })]).2.get
        ⟨1, by decide⟩ =
      processTask
        (processTaskBatch []
          (([({ taskId := "a", taskStatus := .PENDING, taskCreated := 1, taskUpdated := 1,
                 ttl := 10, payload := [] },
              { runnerResult := Except.ok TaskStatus.SUCCESS, leaseIoError := true,
                concludeIoError := false, leaseNow := 2, concludeNow := 3 }),
             ({ taskId := "b", taskStatus := .PENDING, taskCreated := 4, taskUpdated := 4,
                 ttl := 10, payload := [] },
              { runnerResult := Except.ok TaskStatus.SUCCESS, leaseIoError := false,
                concludeIoError := false, leaseNow := 5, concludeNow := 6 })] :
            List (TaskRecord × TaskEnv)).take 1)).1
        { taskId := "b", taskStatus := .PENDING, taskCreated := 4, taskUpdated := 4,
          ttl := 10, payload := [] }
        { runnerResult := Except.ok TaskStatus.SUCCESS, leaseIoError := false,
          concludeIoError := false, leaseNow := 5, concludeNow := 6 } :=
  (processTaskBatch_isolation_spec []
    [({ taskId := "a", taskStatus := .PENDING, taskCreated := 1, taskUpdated := 1,
         ttl := 10, payload := [] },
      { runnerResult := Except.ok TaskStatus.SUCCESS, leaseIoError := true,
        concludeIoError := false, leaseNow := 2, concludeNow := 3 }),
     ({ taskId := "b", taskStatus := .PENDING, taskCreated := 4, taskUpdated := 4,
         ttl := 10, payload := [] },
      { runnerResult := Except.ok TaskStatus.SUCCESS, leaseIoError := false,
        concludeIoError := false, leaseNow := 5, concludeNow := 6 })]).2 1
    (by decide) (by decide)

/-- C6: when an activation of the worker loop finishes, the hand-off
trigger was invoked exactly once if the final iteration saw a non-empty
`PENDING` batch with the active-time budget exceeded, and zero times
otherwise; in particular an activation whose final iteration observed an
empty batch emits no hand-off. -/
theorem processTasksLoop_handoff_spec (store : Store) (envs : List IterEnv)
    (r : LoopResult) (h : processTasksLoop store envs = some r) :
    (r.handoffs = 1 ↔ (r.finalHasTasks = true ∧ r.finalReachedLimit = true))
    ∧ r.handoffs ≤ 1
    ∧ (r.finalHasTasks = false → r.handoffs = 0) := by
  induction envs generalizing store with
  | nil => exact Option.noConfusion h
  | cons e rest ih =>
    simp only [processTasksLoop] at h
    by_cases hb : (decide (0 < (getPendingTaskBatch store).length) &&
        !decide (maxActiveTime ≤ e.activeTime)) = true
    · rw [if_pos hb] at h
      exact ih _ h
    · rw [if_neg hb] at h
      have h' := Option.some.inj h
      subst h'
      cases hht : decide (0 < (getPendingTaskBatch store).length)
      · simp [hht]
      · cases hrl : decide (maxActiveTime ≤ e.activeTime)
        · exact absurd (by rw [hht, hrl]; rfl :
            (decide (0 < (getPendingTaskBatch store).length) &&
              !decide (maxActiveTime ≤ e.activeTime)) = true) hb
        · simp [hht, hrl]

/-- C6 witness: an activation that immediately observes an empty batch
exits with zero hand-offs. -/
theorem processTasksLoop_handoff_spec_witness :
    ({ store := [], handoffs := 0, finalHasTasks := false,
       finalReachedLimit := false } : LoopResult).handoffs = 0 :=
  (processTasksLoop_handoff_spec [] [{ activeTime := 0, taskEnv := fun _ =>
      { runnerResult := Except.ok TaskStatus.SUCCESS, leaseIoError := false,
        concludeIoError := false, leaseNow := 0, concludeNow := 0 } }]
    { store := [], handoffs := 0, finalHasTasks := false, finalReachedLimit := false }
    rfl).2.2 rfl

theorem fakeTaskRunnerCount_le (evs : List RunnerEvent) :
    ∀ c : Nat, c ≤ fakeMaxActiveTasks →
      List.foldl fakeTaskRunnerStep c evs ≤ fakeMaxActiveTasks := by
  induction evs with
  | nil => intro c hc; exact hc
  | cons ev rest ih =>
    intro c hc
    simp only [List.foldl_cons]
    apply ih
    simp only [fakeMaxActiveTasks] at hc ⊢
    cases ev
    · simp only [fakeTaskRunnerStep, fakeMaxActiveTasks]
      split <;> omega
    · simp only [fakeTaskRunnerStep]
      omega

/-- C10: the demonstration runner resolves `PENDING` exactly when the
shared active-task count is at least `fakeMaxActiveTasks` at entry and
`SUCCESS` otherwise; it never yields `FAILURE`, so it never drives a
`TAKEN → FAILURE` concluding transition; and the active-task count never
exceeds `fakeMaxActiveTasks` along any event sequence. -/
theorem fakeTaskRunner_spec :
    (∀ c : Nat, (fakeTaskRunnerResult c = .PENDING ↔ fakeMaxActiveTasks ≤ c)
      ∧ (fakeTaskRunnerResult c = .SUCCESS ↔ c < fakeMaxActiveTasks)
      ∧ fakeTaskRunnerResult c ≠ .FAILURE)
    ∧ (∀ evs : List RunnerEvent, List.foldl fakeTaskRunnerStep 0 evs ≤ fakeMaxActiveTasks)
    ∧ (∀ (c : Nat) (store : Store) (task : TaskRecord) (env : TaskEnv),
        env.runnerResult = Except.ok (fakeTaskRunnerResult c) →
        (processTask store task env).concludingTransition ≠ some (.TAKEN, .FAILURE)) := by
  refine ⟨?_, fun evs => fakeTaskRunnerCount_le evs 0 (by simp [fakeMaxActiveTasks]), ?_⟩
  · intro c
    simp only [fakeTaskRunnerResult, fakeMaxActiveTasks]
    by_cases h : 3 ≤ c
    · rw [if_pos h]
      refine ⟨by simp [h], by simp only [reduceCtorEq, false_iff]; omega, by simp⟩
    · rw [if_neg h]
      refine ⟨by simp only [reduceCtorEq, false_iff]; omega,
        by simp only [true_iff]; omega, by simp⟩
  · intro c store task env henv
    cases hl : (transitionTask store task.taskId .PENDING .TAKEN env.leaseNow
        env.leaseIoError).returned
    · simp [processTask, hl]
    · simp only [processTask, hl, henv, if_true]
      intro hcontra
      have : fakeTaskRunnerResult c = .FAILURE := by
        have h2 := (Option.some.inj hcontra)
        exact congrArg Prod.snd h2
      unfold fakeTaskRunnerResult at this
      split at this <;> exact TaskStatus.noConfusion this

/-- C10 witness: at entry count 0 the runner does not fail. -/
theorem fakeTaskRunner_spec_witness : fakeTaskRunnerResult 0 ≠ .FAILURE :=
  (fakeTaskRunner_spec.1 0).2.2

end LifoQueue
